import Mathlib

/-!
Shallow embedding of the MTEF binary-equation decoder (`src/eqn.rs`,
`src/constants.rs`) of the `mtef-rs` repository, and theorems settling the
specification claims about it.

Modelling conventions:
* A byte buffer is a `List Nat` whose elements are byte values (< 256 for
  well-formed buffers); the Rust `Cursor<Vec<u8>>` is a `Cursor` structure
  holding the buffer and a read position.
* Every Rust read that can fail does so via `.unwrap()` in the source, which
  panics; a panic (and any other divergence) is modelled as `none`, so each
  fallible routine returns an `Option`.  The value the Rust function actually
  returns, `Result<MTEquation, Error>`, is modelled as
  `Except Error MTEquation` under that `Option` layer.
* The GBK text decoding used by `read_null_terminated_string` is delegated by
  the source to the external `encoding` crate; only its ASCII fragment (where
  GBK is the identity) is modelled, and non-ASCII byte runs are mapped to
  decode failure.  No claim exercises non-ASCII strings.
-/

/-- The error enumeration of `src/error.rs` (constructor payloads that are
foreign types are reduced to `String`/unit data). -/
inductive Error where
  | badFileSize
  | ioError
  | notImplementedYet
  | invalidOLEFile
  | badSizeValue (s : String)
  | emptyMasterSectorAllocationTable
  | notSectorUsedBySAT
  | nodeTypeUnknown
  | badRootStorageSize
  | emptyEntry
deriving DecidableEq

/-- The `MTLine` struct of `src/eqn.rs`. -/
structure MTLine where
  nudge : Nat × Nat
  line_spacing : Nat
  null : Bool
deriving DecidableEq

/-- The `MTTmpl` struct of `src/eqn.rs`. -/
structure MTTmpl where
  nudge : Nat × Nat
  selector : Nat
  variation : Nat
  options : Nat
deriving DecidableEq

/-- The `MTChar` struct of `src/eqn.rs`. -/
structure MTChar where
  nudge : Nat × Nat
  typeface : Nat
  mtcode : Nat
  fp8 : Nat
  fp16 : Nat
deriving DecidableEq

/-- The `MTRecords` enum of `src/eqn.rs`. -/
inductive MTRecords where
  | END
  | LINE (l : MTLine)
  | CHAR (c : MTChar)
  | TMPL (t : MTTmpl)
  | ENCODING_DEF (name : String)
  | FONT_DEF (enc_def_index : Nat) (name : String)
  | FONT_STYLE_DEF (font_def_index : Nat) (char_style : Nat)
  | EQN_PREFS (sizes : List String) (spaces : List String) (styles : List (Option Nat))
  | FULL
  | SUB
  | SUB2
  | SYM
  | SUBSYM
  | FUTURE
deriving DecidableEq

/-- The `MTEquation` struct of `src/eqn.rs`. -/
structure MTEquation where
  m_mtef_ver : Nat
  m_platform : Nat
  m_product : Nat
  m_version : Nat
  m_version_sub : Nat
  m_application : String
  m_inline : Nat
  encoding_defs : List MTRecords
  records : List MTRecords
deriving DecidableEq

instance : DecidableEq (Except Error MTEquation) := fun a b =>
  match a, b with
  | .ok x, .ok y =>
      if h : x = y then isTrue (by rw [h]) else isFalse (by intro hh; cases hh; exact h rfl)
  | .error x, .error y =>
      if h : x = y then isTrue (by rw [h]) else isFalse (by intro hh; cases hh; exact h rfl)
  | .ok _, .error _ => isFalse (by intro hh; cases hh)
  | .error _, .ok _ => isFalse (by intro hh; cases hh)

/-! ### Record-type constants

`src/eqn.rs` defines its own file-local record-tag constants (the ones the
decoder's `match` dispatches on); `src/constants.rs` defines a second,
public table `record_types`.  Both are embedded, in namespaces named after
their origin, because the two disagree on `EMBELL`/`MATRIX`. -/

namespace eqnConsts

def END : Nat := 0
def LINE : Nat := 1
def CHAR : Nat := 2
def TMPL : Nat := 3
def PILE : Nat := 4
def EMBELL : Nat := 5
def MATRIX : Nat := 6
def RULER : Nat := 7
def FONT_STYLE_DEF : Nat := 8
def SIZE : Nat := 9
def FULL : Nat := 10
def SUB : Nat := 11
def SUB2 : Nat := 12
def SYM : Nat := 13
def SUBSYM : Nat := 14
def COLOR : Nat := 15
def COLOR_DEF : Nat := 16
def FONT_DEF : Nat := 17
def EQN_PREFS : Nat := 18
def ENCODING_DEF : Nat := 19
def FUTURE : Nat := 100

end eqnConsts

namespace record_types

def END : Nat := 0
def LINE : Nat := 1
def CHAR : Nat := 2
def TMPL : Nat := 3
def PILE : Nat := 4
def MATRIX : Nat := 5
def EMBELL : Nat := 6
def RULER : Nat := 7
def FONT_STYLE_DEF : Nat := 8
def SIZE : Nat := 9
def FULL : Nat := 10
def SUB : Nat := 11
def SUB2 : Nat := 12
def SYM : Nat := 13
def SUBSYM : Nat := 14
def COLOR : Nat := 15
def COLOR_DEF : Nat := 16
def FONT_DEF : Nat := 17
def EQN_PREFS : Nat := 18
def ENCODING_DEF : Nat := 19
def FUTURE : Nat := 100

end record_types

/-! ### Option-flag constants of `src/eqn.rs` -/

def MTEF_OPT_NUDGE : Nat := 0x08
def MTEF_OPT_LINE_NULL : Nat := 0x01
def MTEF_OPT_LINE_LSPACE : Nat := 0x04
def MTEF_OPT_LP_RULER : Nat := 0x02
def MTEF_OPT_CHAR_EMBELL : Nat := 0x01
def MTEF_OPT_CHAR_FUNC_START : Nat := 0x02
def MTEF_OPT_CHAR_ENC_CHAR_8 : Nat := 0x04
def MTEF_OPT_CHAR_ENC_CHAR_16 : Nat := 0x10
def MTEF_OPT_CHAR_ENC_NO_MTCODE : Nat := 0x20

/-! ### Byte cursor -/

/-- The `std::io::Cursor<Vec<u8>>` the decoder reads from: the buffer plus a
read position. -/
structure Cursor where
  buf : List Nat
  pos : Nat
deriving DecidableEq

/-- `cur.read_u8()`: read one byte and advance, or fail at end of buffer. -/
def Cursor.readU8 (c : Cursor) : Option (Nat × Cursor) :=
  match c.buf.get? c.pos with
  | some b => some (b, ⟨c.buf, c.pos + 1⟩)
  | none => none

/-- `cur.read_u16::<LittleEndian>()`: two bytes, low byte first. -/
def Cursor.readU16LE (c : Cursor) : Option (Nat × Cursor) := do
  let (lo, c) ← c.readU8
  let (hi, c) ← c.readU8
  pure (lo + 256 * hi, c)

/-- Helper for `read_until(b'\0')`: the bytes up to and including the first
NUL (or the whole list when no NUL occurs, as `read_until` at end of input),
together with how many bytes that is. -/
def splitAtNul : List Nat → List Nat × Nat
  | [] => ([], 0)
  | b :: rest =>
      if b = 0 then ([0], 1)
      else
        let (bs, n) := splitAtNul rest
        (b :: bs, n + 1)

/-- `cur.read_until(b'\0', &mut buf)`: never fails; consumes up to and
including the first NUL, or everything that remains. -/
def Cursor.readUntilNul (c : Cursor) : List Nat × Cursor :=
  let (bs, n) := splitAtNul (c.buf.drop c.pos)
  (bs, ⟨c.buf, c.pos + n⟩)

/-- ASCII fragment of the GBK decoding the source performs via the external
`encoding` crate (`GBK.decode(..., DecoderTrap::Strict)`): bytes below 0x80
decode to themselves; multi-byte GBK sequences are not modelled and are
conservatively mapped to failure.  No claim involves non-ASCII strings. -/
def asciiDecode (bs : List Nat) : Option String :=
  if bs.all (fun b => b < 128) then some (String.mk (bs.map (fun b => Char.ofNat b)))
  else none

/-- `read_null_terminated_string` of `src/eqn.rs`: read up to a NUL, `pop`
the final byte, decode the rest. -/
def read_null_terminated_string (c : Cursor) : Option (String × Cursor) :=
  let (bs, c') := c.readUntilNul
  match asciiDecode bs.dropLast with
  | some s => some (s, c')
  | none => none

/-- `read_nudge_values` of `src/eqn.rs`: two bytes, except that a byte equal
to 128 on either coordinate switches to two 16-bit little-endian values. -/
def read_nudge_values (c : Cursor) : Option ((Nat × Nat) × Cursor) := do
  let (b1, c) ← c.readU8
  let (b2, c) ← c.readU8
  if b1 = 128 ∨ b2 = 128 then
    let (x, c) ← c.readU16LE
    let (y, c) ← c.readU16LE
    pure ((x, y), c)
  else
    pure ((b1, b2), c)

/-! ### Nibble-packed dimension arrays (`read_dimension_arrays`) -/

/-- The `fx` closure of `read_dimension_arrays`: one nibble, in unit mode
(`flag = true`) or numeral mode (`flag = false`); nibble `0x0f` in numeral
mode pushes the accumulated string. -/
def fxStep (x : Nat) (s : String) (vec : List String) (flag : Bool) :
    Option (String × List String) :=
  match flag with
  | true =>
    match x with
    | 0x00 => some (s ++ "in", vec)
    | 0x01 => some (s ++ "cm", vec)
    | 0x02 => some (s ++ "pt", vec)
    | 0x03 => some (s ++ "pc", vec)
    | 0x04 => some (s ++ "%", vec)
    | _ => none
  | false =>
    match x with
    | 0x00 => some (s ++ "0", vec)
    | 0x01 => some (s ++ "1", vec)
    | 0x02 => some (s ++ "2", vec)
    | 0x03 => some (s ++ "3", vec)
    | 0x04 => some (s ++ "4", vec)
    | 0x05 => some (s ++ "5", vec)
    | 0x06 => some (s ++ "6", vec)
    | 0x07 => some (s ++ "7", vec)
    | 0x08 => some (s ++ "8", vec)
    | 0x09 => some (s ++ "9", vec)
    | 0x0a => some (s ++ ".", vec)
    | 0x0b => some (s ++ "-", vec)
    | 0x0f => some ("", vec ++ [s])
    | _ => none

/-- The `while count < size` loop of `read_dimension_arrays`, with fuel; the
caller passes enough fuel that exhaustion can only coincide with a read past
the end of the buffer (each iteration consumes one byte). -/
def dimLoop (fuel : Nat) (size : Nat) (count : Nat) (new_str : Bool)
    (tmp : String) (vec : List String) (c : Cursor) :
    Option (List String × Cursor) :=
  match fuel with
  | 0 => none
  | fuel + 1 =>
    if count < size then do
      let (ch, c) ← c.readU8
      let hi := Nat.land ch 0xF0 / 16
      let lo := Nat.land ch 0x0F
      let (tmp, vec) ← fxStep hi tmp vec new_str
      let (ns, count) := if hi = 0x0f then (true, count + 1) else (false, count)
      let (tmp, vec) ← fxStep lo tmp vec ns
      let (ns, count) := if lo = 0x0f then (true, count + 1) else (false, count)
      dimLoop fuel size count ns tmp vec c
    else
      some (vec, c)

/-- `read_dimension_arrays` of `src/eqn.rs`. -/
def read_dimension_arrays (c : Cursor) (size : Nat) : Option (List String × Cursor) :=
  dimLoop (c.buf.length - c.pos + 1) size 0 true "" [] c

/-! ### Record bodies

Each arm of the `match` in `MTEquation::parse` that reads a record payload is
embedded as its own function; `parseRecord` below reassembles the dispatch.
The source's recurring `if <option-bit test> { field = read(...) }` pattern is
embedded by the three `readOpt…` combinators: when the condition holds, read
and advance; otherwise keep the field's default and leave the cursor put. -/

/-- Option-gated single-byte field. -/
def readOpt8 (cond : Prop) [Decidable cond] (c : Cursor) : Option (Nat × Cursor) :=
  if cond then c.readU8 else pure (0, c)

/-- Option-gated 16-bit little-endian field. -/
def readOpt16 (cond : Prop) [Decidable cond] (c : Cursor) : Option (Nat × Cursor) :=
  if cond then c.readU16LE else pure (0, c)

/-- Option-gated nudge field (default `(0, 0)`, as the source's struct
initializers set it). -/
def readOptNudge (cond : Prop) [Decidable cond] (c : Cursor) :
    Option ((Nat × Nat) × Cursor) :=
  if cond then read_nudge_values c else pure ((0, 0), c)

/-- The `Ok(LINE)` arm of `MTEquation::parse`. -/
def readLINE (c : Cursor) : Option (MTLine × Cursor) := do
  let (options, c) ← c.readU8
  let (nudge, c) ← readOptNudge (MTEF_OPT_NUDGE = Nat.land MTEF_OPT_NUDGE options) c
  let (line_spacing, c) ←
    readOpt8 (MTEF_OPT_LINE_LSPACE = Nat.land MTEF_OPT_LINE_LSPACE options) c
  let null : Bool := MTEF_OPT_LINE_NULL = Nat.land MTEF_OPT_LINE_NULL options
  pure (⟨nudge, line_spacing, null⟩, c)

/-- The tail of the `Ok(CHAR)` arm after the option byte and optional nudge
have been consumed. -/
def readCHARafterNudge (options : Nat) (nudge : Nat × Nat) (c : Cursor) :
    Option (MTChar × Cursor) := do
  let (typeface, c) ← c.readU8
  let (mtcode, c) ←
    readOpt16 (MTEF_OPT_CHAR_ENC_NO_MTCODE ≠ Nat.land MTEF_OPT_CHAR_ENC_NO_MTCODE options) c
  let (fp8, c) ←
    readOpt8 (MTEF_OPT_CHAR_ENC_CHAR_8 = Nat.land MTEF_OPT_CHAR_ENC_CHAR_8 options) c
  let (fp16, c) ←
    readOpt16 (MTEF_OPT_CHAR_ENC_CHAR_16 = Nat.land MTEF_OPT_CHAR_ENC_CHAR_16 options) c
  pure (⟨nudge, typeface, mtcode, fp8, fp16⟩, c)

/-- The `Ok(CHAR)` arm of `MTEquation::parse`. -/
def readCHAR (c : Cursor) : Option (MTChar × Cursor) := do
  let (options, c) ← c.readU8
  let (nudge, c) ← readOptNudge (MTEF_OPT_NUDGE = Nat.land MTEF_OPT_NUDGE options) c
  readCHARafterNudge options nudge c

/-- The one-or-two-byte variation field of a TMPL record: the high bit of the
first byte selects the wide form `(byte1 & 0x7F) | (byte2 << 8)`. -/
def readVariation (byte1 : Nat) (c : Cursor) : Option (Nat × Cursor) :=
  if 0x80 = Nat.land byte1 0x80 then
    (c.readU8).map (fun p => (Nat.lor (Nat.land byte1 0x7F) (Nat.shiftLeft p.1 8), p.2))
  else pure (byte1, c)

/-- The `Ok(TMPL)` arm of `MTEquation::parse`: options, optional nudge,
selector, one-or-two-byte variation, then the slot-options byte. -/
def readTMPL (c : Cursor) : Option (MTTmpl × Cursor) := do
  let (options, c) ← c.readU8
  let (nudge, c) ← readOptNudge (MTEF_OPT_NUDGE = Nat.land MTEF_OPT_NUDGE options) c
  let (selector, c) ← c.readU8
  let (byte1, c) ← c.readU8
  let (variation, c) ← readVariation byte1 c
  let (tmplOptions, c) ← c.readU8
  pure (⟨nudge, selector, variation, tmplOptions⟩, c)

/-- The `Ok(FONT_STYLE_DEF)` arm. -/
def readFONT_STYLE_DEF (c : Cursor) : Option (MTRecords × Cursor) := do
  let (font_def_index, c) ← c.readU8
  let (char_style, c) ← c.readU8
  pure (.FONT_STYLE_DEF font_def_index char_style, c)

/-- The `Ok(FONT_DEF)` arm. -/
def readFONT_DEF (c : Cursor) : Option (MTRecords × Cursor) := do
  let (enc_def_index, c) ← c.readU8
  let (name, c) ← read_null_terminated_string c
  pure (.FONT_DEF enc_def_index name, c)

/-- The styles loop of the `Ok(EQN_PREFS)` arm: `size` entries, each a byte
that is either 0 (`None`) or nonzero followed by a value byte (`Some`). -/
def readStyles (n : Nat) (c : Cursor) : Option (List (Option Nat) × Cursor) :=
  match n with
  | 0 => some ([], c)
  | n + 1 => do
    let (b, c) ← c.readU8
    if b = 0 then do
      let (rest, c) ← readStyles n c
      pure (none :: rest, c)
    else do
      let (v, c) ← c.readU8
      let (rest, c) ← readStyles n c
      pure (some v :: rest, c)

/-- The `Ok(EQN_PREFS)` arm. -/
def readEQN_PREFS (c : Cursor) : Option (MTRecords × Cursor) := do
  let (_options, c) ← c.readU8
  let (n1, c) ← c.readU8
  let (sizes, c) ← read_dimension_arrays c n1
  let (n2, c) ← c.readU8
  let (spaces, c) ← read_dimension_arrays c n2
  let (n3, c) ← c.readU8
  let (styles, c) ← readStyles n3 c
  pure (.EQN_PREFS sizes spaces styles, c)

/-- One iteration body of the record loop of `MTEquation::parse`: given the
tag byte just read, consume the record's payload and return the record pushed
onto `eqn.records`, if any (the `PILE`/`EMBELL`/`MATRIX`/`RULER`/`SIZE`/
`COLOR`/`COLOR_DEF` arms only `println!` and push nothing). -/
def parseRecord (tag : Nat) (c : Cursor) : Option (Option MTRecords × Cursor) :=
  if tag = eqnConsts.END then some (some .END, c)
  else if tag = eqnConsts.LINE then
    (readLINE c).map (fun p => (some (.LINE p.1), p.2))
  else if tag = eqnConsts.CHAR then
    (readCHAR c).map (fun p => (some (.CHAR p.1), p.2))
  else if tag = eqnConsts.TMPL then
    (readTMPL c).map (fun p => (some (.TMPL p.1), p.2))
  else if tag = eqnConsts.PILE then some (none, c)
  else if tag = eqnConsts.EMBELL then some (none, c)
  else if tag = eqnConsts.MATRIX then some (none, c)
  else if tag = eqnConsts.RULER then some (none, c)
  else if tag = eqnConsts.FONT_STYLE_DEF then
    (readFONT_STYLE_DEF c).map (fun p => (some p.1, p.2))
  else if tag = eqnConsts.SIZE then some (none, c)
  else if tag = eqnConsts.FULL then some (some .FULL, c)
  else if tag = eqnConsts.SUB then some (some .SUB, c)
  else if tag = eqnConsts.SUB2 then some (some .SUB2, c)
  else if tag = eqnConsts.SYM then some (some .SYM, c)
  else if tag = eqnConsts.SUBSYM then some (some .SUBSYM, c)
  else if tag = eqnConsts.COLOR then some (none, c)
  else if tag = eqnConsts.COLOR_DEF then some (none, c)
  else if tag = eqnConsts.FONT_DEF then
    (readFONT_DEF c).map (fun p => (some p.1, p.2))
  else if tag = eqnConsts.EQN_PREFS then
    (readEQN_PREFS c).map (fun p => (some p.1, p.2))
  else if tag = eqnConsts.ENCODING_DEF then
    (read_null_terminated_string c).map (fun p => (some (.ENCODING_DEF p.1), p.2))
  else if tag = eqnConsts.FUTURE then some (some .FUTURE, c)
  else some (some .FUTURE, c)

/-- The `loop` of `MTEquation::parse`, with fuel: read a tag byte (breaking
with success when the buffer is exhausted, as the `Err(_e) => break` arm
does), decode one record, repeat.  Each iteration consumes at least the tag
byte, so `buf.length + 1` fuel can never be exhausted before the loop ends. -/
def parseLoop (fuel : Nat) (recs : List MTRecords) (c : Cursor) :
    Option (List MTRecords × Cursor) :=
  match fuel with
  | 0 => none
  | fuel + 1 =>
    match c.readU8 with
    | none => some (recs, c)
    | some (tag, c) =>
      match parseRecord tag c with
      | none => none
      | some (r, c) =>
        parseLoop fuel (recs ++ r.toList) c

/-- The four built-in encoding definitions `MTEquation::parse` seeds
`encoding_defs` with. -/
def builtin_encoding_defs : List MTRecords :=
  [.ENCODING_DEF "MTCode", .ENCODING_DEF "Unknown", .ENCODING_DEF "Symbol",
   .ENCODING_DEF "MTExtra"]

/-- `MTEquation::parse` of `src/eqn.rs`: the header (five bytes, the
NUL-terminated application name, the inline flag), then the record loop.
`none` models a panic (a failed `.unwrap()`); the function's sole return
expression is `Ok(eqn)`. -/
def MTEquation.parse (buf : List Nat) : Option (Except Error MTEquation) := do
  let c : Cursor := ⟨buf, 0⟩
  let (m_mtef_ver, c) ← c.readU8
  let (m_platform, c) ← c.readU8
  let (m_product, c) ← c.readU8
  let (m_version, c) ← c.readU8
  let (m_version_sub, c) ← c.readU8
  let (m_application, c) ← read_null_terminated_string c
  let (m_inline, c) ← c.readU8
  let (records, _) ← parseLoop (buf.length + 1) [] c
  pure (Except.ok ⟨m_mtef_ver, m_platform, m_product, m_version, m_version_sub,
    m_application, m_inline, builtin_encoding_defs, records⟩)

/-! ## Cursor and combinator lemmas -/

theorem Cursor.readU8_eq_some {c : Cursor} {b : Nat} {c' : Cursor} :
    c.readU8 = some (b, c') ↔ c.buf.get? c.pos = some b ∧ c' = ⟨c.buf, c.pos + 1⟩ := by
  unfold Cursor.readU8
  cases h : c.buf.get? c.pos <;> simp [h]
  rintro rfl
  exact eq_comm

theorem Cursor.readU16LE_eq_some {c : Cursor} {v : Nat} {c' : Cursor}
    (h : c.readU16LE = some (v, c')) :
    ∃ lo hi, c.buf.get? c.pos = some lo ∧ c.buf.get? (c.pos + 1) = some hi ∧
      v = lo + 256 * hi ∧ c' = ⟨c.buf, c.pos + 2⟩ := by
  unfold Cursor.readU16LE at h
  cases h1 : c.readU8 with
  | none => rw [h1] at h; simp at h
  | some p =>
    obtain ⟨lo, c1⟩ := p
    rw [h1] at h
    obtain ⟨hg1, rfl⟩ := Cursor.readU8_eq_some.mp h1
    simp only [Option.bind_eq_bind, Option.some_bind] at h
    cases h2 : Cursor.readU8 ⟨c.buf, c.pos + 1⟩ with
    | none => rw [h2] at h; simp at h
    | some q =>
      obtain ⟨hi, c2⟩ := q
      rw [h2] at h
      obtain ⟨hg2, rfl⟩ := Cursor.readU8_eq_some.mp h2
      simp only [Option.some_bind] at h
      simp only [Option.pure_def, Option.some.injEq, Prod.mk.injEq] at h
      obtain ⟨rfl, rfl⟩ := h
      exact ⟨lo, hi, hg1, by simpa using hg2, rfl, by simp [Nat.add_assoc]⟩

theorem readOpt8_eq_some {cond : Prop} [Decidable cond] {c : Cursor} {v : Nat} {c' : Cursor}
    (h : readOpt8 cond c = some (v, c')) :
    c'.buf = c.buf ∧ c'.pos = c.pos + (if cond then 1 else 0) := by
  unfold readOpt8 at h
  by_cases hc : cond
  · rw [if_pos hc] at h
    obtain ⟨-, rfl⟩ := Cursor.readU8_eq_some.mp h
    simp [hc]
  · rw [if_neg hc] at h
    simp only [Option.pure_def, Option.some.injEq, Prod.mk.injEq] at h
    obtain ⟨-, rfl⟩ := h
    simp [hc]

theorem readOpt16_eq_some {cond : Prop} [Decidable cond] {c : Cursor} {v : Nat} {c' : Cursor}
    (h : readOpt16 cond c = some (v, c')) :
    c'.buf = c.buf ∧ c'.pos = c.pos + (if cond then 2 else 0) ∧
      (¬cond → v = 0) ∧
      (cond → ∃ lo hi, c.buf.get? c.pos = some lo ∧ c.buf.get? (c.pos + 1) = some hi ∧
        v = lo + 256 * hi) := by
  unfold readOpt16 at h
  by_cases hc : cond
  · rw [if_pos hc] at h
    obtain ⟨lo, hi, hgl, hgh, rfl, rfl⟩ := Cursor.readU16LE_eq_some h
    exact ⟨rfl, by simp [hc], fun hn => absurd hc hn, fun _ => ⟨lo, hi, hgl, hgh, rfl⟩⟩
  · rw [if_neg hc] at h
    simp only [Option.pure_def, Option.some.injEq, Prod.mk.injEq] at h
    obtain ⟨rfl, rfl⟩ := h
    exact ⟨rfl, by simp [hc], fun _ => rfl, fun hcc => absurd hcc hc⟩

theorem readOptNudge_neg {cond : Prop} [Decidable cond] (hn : ¬cond) (c : Cursor) :
    readOptNudge cond c = some ((0, 0), c) := by
  unfold readOptNudge
  rw [if_neg hn]
  rfl

/-! ## Lemmas about the nudge decoder -/

theorem read_nudge_values_narrow (c : Cursor) {b1 b2 : Nat}
    (h1 : c.buf.get? c.pos = some b1) (h2 : c.buf.get? (c.pos + 1) = some b2)
    (hs : ¬(b1 = 128 ∨ b2 = 128)) :
    read_nudge_values c = some ((b1, b2), ⟨c.buf, c.pos + 2⟩) := by
  unfold read_nudge_values
  have e1 : c.readU8 = some (b1, ⟨c.buf, c.pos + 1⟩) := Cursor.readU8_eq_some.mpr ⟨h1, rfl⟩
  have e2 : Cursor.readU8 ⟨c.buf, c.pos + 1⟩ = some (b2, ⟨c.buf, c.pos + 1 + 1⟩) :=
    Cursor.readU8_eq_some.mpr ⟨h2, rfl⟩
  rw [e1]
  simp only [Option.bind_eq_bind, Option.some_bind]
  rw [e2]
  simp only [Option.some_bind]
  rw [if_neg hs]
  simp [Nat.add_assoc]

theorem read_nudge_values_wide (c : Cursor) {b1 b2 : Nat}
    (h1 : c.buf.get? c.pos = some b1) (h2 : c.buf.get? (c.pos + 1) = some b2)
    (hs : b1 = 128 ∨ b2 = 128) {v : Nat × Nat} {c' : Cursor}
    (h : read_nudge_values c = some (v, c')) :
    c'.buf = c.buf ∧ c'.pos = c.pos + 6 := by
  unfold read_nudge_values at h
  have e1 : c.readU8 = some (b1, ⟨c.buf, c.pos + 1⟩) := Cursor.readU8_eq_some.mpr ⟨h1, rfl⟩
  have e2 : Cursor.readU8 ⟨c.buf, c.pos + 1⟩ = some (b2, ⟨c.buf, c.pos + 1 + 1⟩) :=
    Cursor.readU8_eq_some.mpr ⟨h2, rfl⟩
  rw [e1] at h
  simp only [Option.bind_eq_bind, Option.some_bind] at h
  rw [e2] at h
  simp only [Option.some_bind] at h
  rw [if_pos hs] at h
  cases h3 : Cursor.readU16LE ⟨c.buf, c.pos + 1 + 1⟩ with
  | none => rw [h3] at h; simp at h
  | some p =>
    obtain ⟨x, c3⟩ := p
    rw [h3] at h
    obtain ⟨lo1, hi1, _, _, _, rfl⟩ := Cursor.readU16LE_eq_some h3
    simp only [Option.some_bind] at h
    cases h4 : Cursor.readU16LE ⟨c.buf, c.pos + 1 + 1 + 2⟩ with
    | none => rw [h4] at h; simp at h
    | some q =>
      obtain ⟨y, c4⟩ := q
      rw [h4] at h
      obtain ⟨lo2, hi2, _, _, _, rfl⟩ := Cursor.readU16LE_eq_some h4
      simp only [Option.some_bind, Option.pure_def, Option.some.injEq, Prod.mk.injEq] at h
      obtain ⟨-, rfl⟩ := h
      exact ⟨rfl, by show c.pos + 1 + 1 + 2 + 2 = c.pos + 6; omega⟩

theorem read_nudge_values_some {c : Cursor} {v : Nat × Nat} {c' : Cursor}
    (h : read_nudge_values c = some (v, c')) :
    c'.buf = c.buf ∧ (c'.pos = c.pos + 2 ∨ c'.pos = c.pos + 6) := by
  unfold read_nudge_values at h
  cases h1 : c.readU8 with
  | none => rw [h1] at h; simp at h
  | some p =>
    obtain ⟨b1, c1⟩ := p
    rw [h1] at h
    obtain ⟨-, rfl⟩ := Cursor.readU8_eq_some.mp h1
    simp only [Option.bind_eq_bind, Option.some_bind] at h
    cases h2 : Cursor.readU8 ⟨c.buf, c.pos + 1⟩ with
    | none => rw [h2] at h; simp at h
    | some q =>
      obtain ⟨b2, c2⟩ := q
      rw [h2] at h
      obtain ⟨-, rfl⟩ := Cursor.readU8_eq_some.mp h2
      simp only [Option.some_bind] at h
      by_cases hs : b1 = 128 ∨ b2 = 128
      · rw [if_pos hs] at h
        cases h3 : Cursor.readU16LE ⟨c.buf, c.pos + 1 + 1⟩ with
        | none => rw [h3] at h; simp at h
        | some r3 =>
          obtain ⟨x, c3⟩ := r3
          rw [h3] at h
          obtain ⟨_, _, _, _, _, rfl⟩ := Cursor.readU16LE_eq_some h3
          simp only [Option.some_bind] at h
          cases h4 : Cursor.readU16LE ⟨c.buf, c.pos + 1 + 1 + 2⟩ with
          | none => rw [h4] at h; simp at h
          | some r4 =>
            obtain ⟨y, c4⟩ := r4
            rw [h4] at h
            obtain ⟨_, _, _, _, _, rfl⟩ := Cursor.readU16LE_eq_some h4
            simp only [Option.pure_def, Option.some.injEq, Prod.mk.injEq] at h
            obtain ⟨-, rfl⟩ := h
            exact ⟨rfl, Or.inr (by show c.pos + 1 + 1 + 2 + 2 = c.pos + 6; omega)⟩
      · rw [if_neg hs] at h
        simp only [Option.pure_def, Option.some.injEq, Prod.mk.injEq] at h
        obtain ⟨-, rfl⟩ := h
        exact ⟨rfl, Or.inl (by show c.pos + 1 + 1 = c.pos + 2; omega)⟩

theorem readOptNudge_eq_some {cond : Prop} [Decidable cond] {c : Cursor} {v : Nat × Nat}
    {c' : Cursor} (h : readOptNudge cond c = some (v, c')) : c'.buf = c.buf := by
  unfold readOptNudge at h
  by_cases hc : cond
  · rw [if_pos hc] at h
    exact (read_nudge_values_some h).1
  · rw [if_neg hc] at h
    simp only [Option.pure_def, Option.some.injEq, Prod.mk.injEq] at h
    obtain ⟨-, rfl⟩ := h
    rfl

/-! ## Lemmas about the record-body readers -/

theorem readLINE_no_nudge {c : Cursor} {opts : Nat} {l : MTLine} {c' : Cursor}
    (h0 : c.buf.get? c.pos = some opts)
    (hn : MTEF_OPT_NUDGE ≠ Nat.land MTEF_OPT_NUDGE opts)
    (h : readLINE c = some (l, c')) :
    l.nudge = (0, 0) ∧ c'.buf = c.buf ∧
      c'.pos = c.pos + 1 +
        (if MTEF_OPT_LINE_LSPACE = Nat.land MTEF_OPT_LINE_LSPACE opts then 1 else 0) := by
  unfold readLINE at h
  have e1 : c.readU8 = some (opts, ⟨c.buf, c.pos + 1⟩) := Cursor.readU8_eq_some.mpr ⟨h0, rfl⟩
  rw [e1] at h
  simp only [Option.bind_eq_bind, Option.some_bind] at h
  rw [readOptNudge_neg hn] at h
  simp only [Option.some_bind] at h
  cases h2 : readOpt8 (MTEF_OPT_LINE_LSPACE = Nat.land MTEF_OPT_LINE_LSPACE opts)
      ⟨c.buf, c.pos + 1⟩ with
  | none => rw [h2] at h; simp at h
  | some p =>
    obtain ⟨ls, c2⟩ := p
    rw [h2] at h
    simp only [Option.some_bind, Option.pure_def, Option.some.injEq, Prod.mk.injEq] at h
    obtain ⟨rfl, rfl⟩ := h
    obtain ⟨hb2, hp2⟩ := readOpt8_eq_some h2
    exact ⟨rfl, hb2, hp2⟩

theorem readCHARafterNudge_spec {opts : Nat} {nd : Nat × Nat} {c : Cursor} {ch : MTChar}
    {c' : Cursor} (h : readCHARafterNudge opts nd c = some (ch, c')) :
    c'.buf = c.buf ∧ ch.nudge = nd ∧
    c'.pos = c.pos + 1 +
      (if MTEF_OPT_CHAR_ENC_NO_MTCODE ≠ Nat.land MTEF_OPT_CHAR_ENC_NO_MTCODE opts then 2
        else 0) +
      (if MTEF_OPT_CHAR_ENC_CHAR_8 = Nat.land MTEF_OPT_CHAR_ENC_CHAR_8 opts then 1 else 0) +
      (if MTEF_OPT_CHAR_ENC_CHAR_16 = Nat.land MTEF_OPT_CHAR_ENC_CHAR_16 opts then 2
        else 0) ∧
    (MTEF_OPT_CHAR_ENC_NO_MTCODE = Nat.land MTEF_OPT_CHAR_ENC_NO_MTCODE opts →
      ch.mtcode = 0) ∧
    (MTEF_OPT_CHAR_ENC_NO_MTCODE ≠ Nat.land MTEF_OPT_CHAR_ENC_NO_MTCODE opts →
      ∃ lo hi, c.buf.get? (c.pos + 1) = some lo ∧ c.buf.get? (c.pos + 2) = some hi ∧
        ch.mtcode = lo + 256 * hi) := by
  unfold readCHARafterNudge at h
  cases h1 : c.readU8 with
  | none => rw [h1] at h; simp at h
  | some p =>
    obtain ⟨tf, c1⟩ := p
    rw [h1] at h
    obtain ⟨hgtf, rfl⟩ := Cursor.readU8_eq_some.mp h1
    simp only [Option.bind_eq_bind, Option.some_bind] at h
    cases h2 : readOpt16
        (MTEF_OPT_CHAR_ENC_NO_MTCODE ≠ Nat.land MTEF_OPT_CHAR_ENC_NO_MTCODE opts)
        ⟨c.buf, c.pos + 1⟩ with
    | none => rw [h2] at h; simp at h
    | some p2 =>
      obtain ⟨mt, c2⟩ := p2
      rw [h2] at h
      simp only [Option.some_bind] at h
      obtain ⟨hb2, hp2, hz, hv⟩ := readOpt16_eq_some h2
      cases h3 : readOpt8 (MTEF_OPT_CHAR_ENC_CHAR_8 = Nat.land MTEF_OPT_CHAR_ENC_CHAR_8 opts)
          c2 with
      | none => rw [h3] at h; simp at h
      | some p3 =>
        obtain ⟨f8, c3⟩ := p3
        rw [h3] at h
        simp only [Option.some_bind] at h
        obtain ⟨hb3, hp3⟩ := readOpt8_eq_some h3
        cases h4 : readOpt16
            (MTEF_OPT_CHAR_ENC_CHAR_16 = Nat.land MTEF_OPT_CHAR_ENC_CHAR_16 opts) c3 with
        | none => rw [h4] at h; simp at h
        | some p4 =>
          obtain ⟨f16, c4⟩ := p4
          rw [h4] at h
          simp only [Option.some_bind, Option.pure_def, Option.some.injEq,
            Prod.mk.injEq] at h
          obtain ⟨rfl, rfl⟩ := h
          obtain ⟨hb4, hp4, -, -⟩ := readOpt16_eq_some h4
          refine ⟨by rw [hb4, hb3, hb2], rfl, ?_, fun he => hz (fun hne => hne he), ?_⟩
          · rw [hp4, hp3, hp2]
          · intro hne
            obtain ⟨lo, hi, hgl, hgh, hval⟩ := hv hne
            exact ⟨lo, hi, hgl, hgh, hval⟩

theorem readCHAR_mtcode {c : Cursor} {opts : Nat} {ch : MTChar} {c' : Cursor}
    (h0 : c.buf.get? c.pos = some opts) (h : readCHAR c = some (ch, c')) :
    (MTEF_OPT_CHAR_ENC_NO_MTCODE = Nat.land MTEF_OPT_CHAR_ENC_NO_MTCODE opts →
      ch.mtcode = 0) ∧
    (MTEF_OPT_CHAR_ENC_NO_MTCODE ≠ Nat.land MTEF_OPT_CHAR_ENC_NO_MTCODE opts →
      ∃ k lo hi, c.buf.get? k = some lo ∧ c.buf.get? (k + 1) = some hi ∧
        ch.mtcode = lo + 256 * hi) := by
  unfold readCHAR at h
  have e1 : c.readU8 = some (opts, ⟨c.buf, c.pos + 1⟩) := Cursor.readU8_eq_some.mpr ⟨h0, rfl⟩
  rw [e1] at h
  simp only [Option.bind_eq_bind, Option.some_bind] at h
  cases h2 : readOptNudge (MTEF_OPT_NUDGE = Nat.land MTEF_OPT_NUDGE opts)
      (⟨c.buf, c.pos + 1⟩ : Cursor) with
  | none => rw [h2] at h; simp at h
  | some p =>
    obtain ⟨nd, c2⟩ := p
    rw [h2] at h
    simp only [Option.some_bind] at h
    have hb2 := readOptNudge_eq_some h2
    obtain ⟨-, -, -, hz, hv⟩ := readCHARafterNudge_spec h
    refine ⟨hz, fun hne => ?_⟩
    obtain ⟨lo, hi, hgl, hgh, hval⟩ := hv hne
    rw [hb2] at hgl hgh
    exact ⟨c2.pos + 1, lo, hi, hgl, hgh, hval⟩

theorem readCHAR_no_nudge {c : Cursor} {opts : Nat} {ch : MTChar} {c' : Cursor}
    (h0 : c.buf.get? c.pos = some opts)
    (hn : MTEF_OPT_NUDGE ≠ Nat.land MTEF_OPT_NUDGE opts)
    (h : readCHAR c = some (ch, c')) :
    ch.nudge = (0, 0) ∧ c'.buf = c.buf ∧
      c'.pos = c.pos + 2 +
        (if MTEF_OPT_CHAR_ENC_NO_MTCODE ≠ Nat.land MTEF_OPT_CHAR_ENC_NO_MTCODE opts then 2
          else 0) +
        (if MTEF_OPT_CHAR_ENC_CHAR_8 = Nat.land MTEF_OPT_CHAR_ENC_CHAR_8 opts then 1
          else 0) +
        (if MTEF_OPT_CHAR_ENC_CHAR_16 = Nat.land MTEF_OPT_CHAR_ENC_CHAR_16 opts then 2
          else 0) := by
  unfold readCHAR at h
  have e1 : c.readU8 = some (opts, ⟨c.buf, c.pos + 1⟩) := Cursor.readU8_eq_some.mpr ⟨h0, rfl⟩
  rw [e1] at h
  simp only [Option.bind_eq_bind, Option.some_bind] at h
  rw [readOptNudge_neg hn] at h
  simp only [Option.some_bind] at h
  obtain ⟨hb, hnd, hp, -, -⟩ := readCHARafterNudge_spec h
  exact ⟨hnd, hb, hp⟩

theorem readVariation_eq_some {b1 : Nat} {c : Cursor} {v : Nat} {c' : Cursor}
    (h : readVariation b1 c = some (v, c')) :
    c'.buf = c.buf ∧ c'.pos = c.pos + (if 0x80 = Nat.land b1 0x80 then 1 else 0) := by
  unfold readVariation at h
  by_cases hb : 0x80 = Nat.land b1 0x80
  · rw [if_pos hb] at h
    cases h1 : c.readU8 with
    | none => rw [h1] at h; simp at h
    | some p =>
      obtain ⟨b2, c1⟩ := p
      rw [h1] at h
      obtain ⟨-, rfl⟩ := Cursor.readU8_eq_some.mp h1
      simp only [Option.map_some', Option.some.injEq, Prod.mk.injEq] at h
      obtain ⟨-, rfl⟩ := h
      exact ⟨rfl, by rw [if_pos hb]⟩
  · rw [if_neg hb] at h
    simp only [Option.pure_def, Option.some.injEq, Prod.mk.injEq] at h
    obtain ⟨-, rfl⟩ := h
    exact ⟨rfl, by rw [if_neg hb, Nat.add_zero]⟩

theorem readTMPL_no_nudge {c : Cursor} {opts v1 : Nat} {t : MTTmpl} {c' : Cursor}
    (h0 : c.buf.get? c.pos = some opts)
    (hn : MTEF_OPT_NUDGE ≠ Nat.land MTEF_OPT_NUDGE opts)
    (hv1 : c.buf.get? (c.pos + 2) = some v1)
    (h : readTMPL c = some (t, c')) :
    t.nudge = (0, 0) ∧ c'.buf = c.buf ∧
      c'.pos = c.pos + 3 + (if 0x80 = Nat.land v1 0x80 then 2 else 1) := by
  unfold readTMPL at h
  have e1 : c.readU8 = some (opts, ⟨c.buf, c.pos + 1⟩) := Cursor.readU8_eq_some.mpr ⟨h0, rfl⟩
  rw [e1] at h
  simp only [Option.bind_eq_bind, Option.some_bind] at h
  rw [readOptNudge_neg hn] at h
  simp only [Option.some_bind] at h
  cases h2 : Cursor.readU8 ⟨c.buf, c.pos + 1⟩ with
  | none => rw [h2] at h; simp at h
  | some p2 =>
    obtain ⟨sel, c2⟩ := p2
    rw [h2] at h
    obtain ⟨-, rfl⟩ := Cursor.readU8_eq_some.mp h2
    simp only [Option.some_bind] at h
    cases h3 : Cursor.readU8 ⟨c.buf, c.pos + 1 + 1⟩ with
    | none => rw [h3] at h; simp at h
    | some p3 =>
      obtain ⟨b1, c3⟩ := p3
      rw [h3] at h
      obtain ⟨hg3, rfl⟩ := Cursor.readU8_eq_some.mp h3
      have hb1 : b1 = v1 := Option.some.inj (hg3.symm.trans hv1)
      subst hb1
      simp only [Option.some_bind] at h
      cases h4 : readVariation b1 ⟨c.buf, c.pos + 1 + 1 + 1⟩ with
      | none => rw [h4] at h; simp at h
      | some p4 =>
        obtain ⟨vr, c4⟩ := p4
        rw [h4] at h
        simp only [Option.some_bind] at h
        obtain ⟨hb4, hp4⟩ := readVariation_eq_some h4
        cases h5 : c4.readU8 with
        | none => rw [h5] at h; simp at h
        | some p5 =>
          obtain ⟨topt, c5⟩ := p5
          rw [h5] at h
          obtain ⟨-, rfl⟩ := Cursor.readU8_eq_some.mp h5
          simp only [Option.some_bind, Option.pure_def, Option.some.injEq,
            Prod.mk.injEq] at h
          obtain ⟨rfl, rfl⟩ := h
          refine ⟨rfl, hb4, ?_⟩
          show c4.pos + 1 = _
          rw [hp4]
          show c.pos + 1 + 1 + 1 + _ + 1 = _
          by_cases hw : 0x80 = Nat.land b1 0x80
          · rw [if_pos hw, if_pos hw]
          · rw [if_neg hw, if_neg hw]

theorem readTMPL_single_byte {c : Cursor} {opts sel v1 sopts : Nat}
    (h0 : c.buf.get? c.pos = some opts)
    (hn : MTEF_OPT_NUDGE ≠ Nat.land MTEF_OPT_NUDGE opts)
    (h1 : c.buf.get? (c.pos + 1) = some sel)
    (h2 : c.buf.get? (c.pos + 2) = some v1)
    (hv : 0x80 ≠ Nat.land v1 0x80)
    (h3 : c.buf.get? (c.pos + 3) = some sopts) :
    readTMPL c = some (⟨(0, 0), sel, v1, sopts⟩, ⟨c.buf, c.pos + 4⟩) := by
  unfold readTMPL
  have e1 : c.readU8 = some (opts, ⟨c.buf, c.pos + 1⟩) := Cursor.readU8_eq_some.mpr ⟨h0, rfl⟩
  rw [e1]
  simp only [Option.bind_eq_bind, Option.some_bind]
  rw [readOptNudge_neg hn]
  simp only [Option.some_bind]
  have e2 : Cursor.readU8 ⟨c.buf, c.pos + 1⟩ = some (sel, ⟨c.buf, c.pos + 1 + 1⟩) :=
    Cursor.readU8_eq_some.mpr ⟨h1, rfl⟩
  rw [e2]
  simp only [Option.some_bind]
  have e3 : Cursor.readU8 ⟨c.buf, c.pos + 1 + 1⟩ = some (v1, ⟨c.buf, c.pos + 1 + 1 + 1⟩) :=
    Cursor.readU8_eq_some.mpr ⟨h2, rfl⟩
  rw [e3]
  simp only [Option.some_bind]
  unfold readVariation
  rw [if_neg hv]
  simp only [Option.pure_def, Option.some_bind]
  have e4 : Cursor.readU8 ⟨c.buf, c.pos + 1 + 1 + 1⟩ =
      some (sopts, ⟨c.buf, c.pos + 1 + 1 + 1 + 1⟩) :=
    Cursor.readU8_eq_some.mpr ⟨h3, rfl⟩
  rw [e4]
  simp only [Option.some_bind]

/-- Every value `MTEquation.parse` actually returns (every non-panic outcome)
is `Except.ok` of an equation whose `encoding_defs` field is exactly the four
built-ins: the function's single return expression is `Ok(eqn)` and nothing
in the record loop touches `encoding_defs`. -/
theorem parse_shape {buf : List Nat} {r : Except Error MTEquation}
    (h : MTEquation.parse buf = some r) :
    ∃ eqn : MTEquation, r = Except.ok eqn ∧
      eqn.encoding_defs = builtin_encoding_defs := by
  unfold MTEquation.parse at h
  simp only [Option.bind_eq_bind] at h
  cases h1 : Cursor.readU8 ⟨buf, 0⟩ with
  | none => rw [h1] at h; simp at h
  | some p1 =>
    obtain ⟨v1, c1⟩ := p1
    rw [h1] at h
    simp only [Option.bind_eq_bind, Option.some_bind] at h
    cases h2 : c1.readU8 with
    | none => rw [h2] at h; simp at h
    | some p2 =>
      obtain ⟨v2, c2⟩ := p2
      rw [h2] at h
      simp only [Option.some_bind] at h
      cases h3 : c2.readU8 with
      | none => rw [h3] at h; simp at h
      | some p3 =>
        obtain ⟨v3, c3⟩ := p3
        rw [h3] at h
        simp only [Option.some_bind] at h
        cases h4 : c3.readU8 with
        | none => rw [h4] at h; simp at h
        | some p4 =>
          obtain ⟨v4, c4⟩ := p4
          rw [h4] at h
          simp only [Option.some_bind] at h
          cases h5 : c4.readU8 with
          | none => rw [h5] at h; simp at h
          | some p5 =>
            obtain ⟨v5, c5⟩ := p5
            rw [h5] at h
            simp only [Option.some_bind] at h
            cases h6 : read_null_terminated_string c5 with
            | none => rw [h6] at h; simp at h
            | some p6 =>
              obtain ⟨app, c6⟩ := p6
              rw [h6] at h
              simp only [Option.some_bind] at h
              cases h7 : c6.readU8 with
              | none => rw [h7] at h; simp at h
              | some p7 =>
                obtain ⟨inl, c7⟩ := p7
                rw [h7] at h
                simp only [Option.some_bind] at h
                cases h8 : parseLoop (buf.length + 1) [] c7 with
                | none => rw [h8] at h; simp at h
                | some p8 =>
                  obtain ⟨recs, c8⟩ := p8
                  rw [h8] at h
                  simp only [Option.some_bind, Option.pure_def, Option.some.injEq] at h
                  exact ⟨_, h.symm, rfl⟩

/-! ## Claim theorems -/

/-- Claim C1 (counterexample): the claim says the nudge decoder advances the
cursor by exactly 4 bytes total when either of the first two bytes equals
128; on the concrete buffer `[128, 0, 5, 0, 7, 0]` the decoder succeeds and
leaves the cursor at position 6, not 4 — the sentinel form consumes the two
sentinel bytes plus two 16-bit values. -/
theorem nudge_sentinel_four_byte_counterexample :
    read_nudge_values ⟨[128, 0, 5, 0, 7, 0], 0⟩ =
      some ((5, 7), ⟨[128, 0, 5, 0, 7, 0], 6⟩) ∧ (6 : Nat) ≠ 4 := by decide

/-- Claim C1 (amended): for every record whose option byte has the NUDGE bit
(0x08) clear, decoding that record does not advance the cursor for a nudge
payload — the LINE/CHAR/TMPL readers leave the nudge at `(0, 0)` and land
the cursor exactly at the width of their option-gated non-nudge fields
(LINE: options plus optional line spacing; CHAR: options, typeface and the
option-gated mtcode/fp8/fp16 fields; TMPL: options, selector, one-or-two
byte variation and slot options); for every record with the NUDGE bit set,
the nudge decoder advances the cursor by exactly 2 bytes when neither of the
first two bytes equals 128, and by exactly 6 bytes total (the two sentinel
bytes plus two 16-bit little-endian values) when either of the first two
bytes equals 128. -/
theorem nudge_option_gating_and_width :
    (∀ (c : Cursor) (b1 b2 : Nat), c.buf.get? c.pos = some b1 →
        c.buf.get? (c.pos + 1) = some b2 →
        (¬(b1 = 128 ∨ b2 = 128) →
          read_nudge_values c = some ((b1, b2), ⟨c.buf, c.pos + 2⟩)) ∧
        ((b1 = 128 ∨ b2 = 128) → ∀ (v : Nat × Nat) (c' : Cursor),
          read_nudge_values c = some (v, c') →
          c'.buf = c.buf ∧ c'.pos = c.pos + 6)) ∧
    (∀ (c : Cursor) (opts : Nat) (l : MTLine) (c' : Cursor),
        c.buf.get? c.pos = some opts →
        MTEF_OPT_NUDGE ≠ Nat.land MTEF_OPT_NUDGE opts →
        readLINE c = some (l, c') →
        l.nudge = (0, 0) ∧ c'.buf = c.buf ∧
          c'.pos = c.pos + 1 +
            (if MTEF_OPT_LINE_LSPACE = Nat.land MTEF_OPT_LINE_LSPACE opts then 1 else 0)) ∧
    (∀ (c : Cursor) (opts : Nat) (ch : MTChar) (c' : Cursor),
        c.buf.get? c.pos = some opts →
        MTEF_OPT_NUDGE ≠ Nat.land MTEF_OPT_NUDGE opts →
        readCHAR c = some (ch, c') →
        ch.nudge = (0, 0) ∧ c'.buf = c.buf ∧
          c'.pos = c.pos + 2 +
            (if MTEF_OPT_CHAR_ENC_NO_MTCODE ≠ Nat.land MTEF_OPT_CHAR_ENC_NO_MTCODE opts
              then 2 else 0) +
            (if MTEF_OPT_CHAR_ENC_CHAR_8 = Nat.land MTEF_OPT_CHAR_ENC_CHAR_8 opts
              then 1 else 0) +
            (if MTEF_OPT_CHAR_ENC_CHAR_16 = Nat.land MTEF_OPT_CHAR_ENC_CHAR_16 opts
              then 2 else 0)) ∧
    (∀ (c : Cursor) (opts v1 : Nat) (t : MTTmpl) (c' : Cursor),
        c.buf.get? c.pos = some opts →
        MTEF_OPT_NUDGE ≠ Nat.land MTEF_OPT_NUDGE opts →
        c.buf.get? (c.pos + 2) = some v1 →
        readTMPL c = some (t, c') →
        t.nudge = (0, 0) ∧ c'.buf = c.buf ∧
          c'.pos = c.pos + 3 + (if 0x80 = Nat.land v1 0x80 then 2 else 1)) :=
  ⟨fun c _b1 _b2 h1 h2 =>
    ⟨fun hs => read_nudge_values_narrow c h1 h2 hs,
     fun hs _v _c' h => read_nudge_values_wide c h1 h2 hs h⟩,
   fun _c _opts _l _c' h0 hn h => readLINE_no_nudge h0 hn h,
   fun _c _opts _ch _c' h0 hn h => readCHAR_no_nudge h0 hn h,
   fun _c _opts _v1 _t _c' h0 hn hv1 h => readTMPL_no_nudge h0 hn hv1 h⟩

/-- Witness for the amended C1 theorem: the narrow form on `[1, 2]` consumes
exactly 2 bytes; the sentinel form on `[128, 0, 5, 0, 7, 0]` lands at
position 6; a CHAR record with option byte 0 decodes with nudge `(0, 0)` at
the position given by the width formula; a TMPL record with option byte 0
and single-byte variation decodes with nudge `(0, 0)` at position 4. -/
theorem nudge_option_gating_and_width_witness :
    read_nudge_values ⟨[1, 2], 0⟩ = some ((1, 2), ⟨[1, 2], 2⟩) ∧
    ((⟨[128, 0, 5, 0, 7, 0], 6⟩ : Cursor).buf = [128, 0, 5, 0, 7, 0] ∧
      (⟨[128, 0, 5, 0, 7, 0], 6⟩ : Cursor).pos = 0 + 6) ∧
    ((⟨(0, 0), 131, 120, 0, 0⟩ : MTChar).nudge = (0, 0) ∧
      (⟨[0, 131, 120, 0], 4⟩ : Cursor).buf = [0, 131, 120, 0] ∧
      (⟨[0, 131, 120, 0], 4⟩ : Cursor).pos = 0 + 2 +
        (if MTEF_OPT_CHAR_ENC_NO_MTCODE ≠ Nat.land MTEF_OPT_CHAR_ENC_NO_MTCODE 0
          then 2 else 0) +
        (if MTEF_OPT_CHAR_ENC_CHAR_8 = Nat.land MTEF_OPT_CHAR_ENC_CHAR_8 0
          then 1 else 0) +
        (if MTEF_OPT_CHAR_ENC_CHAR_16 = Nat.land MTEF_OPT_CHAR_ENC_CHAR_16 0
          then 2 else 0)) ∧
    ((⟨(0, 0), 1, 2, 0⟩ : MTTmpl).nudge = (0, 0) ∧
      (⟨[0, 1, 2, 0], 4⟩ : Cursor).buf = [0, 1, 2, 0] ∧
      (⟨[0, 1, 2, 0], 4⟩ : Cursor).pos = 0 + 3 +
        (if 0x80 = Nat.land 2 0x80 then 2 else 1)) :=
  ⟨(nudge_option_gating_and_width.1 ⟨[1, 2], 0⟩ 1 2 (by decide) (by decide)).1 (by decide),
   (nudge_option_gating_and_width.1 ⟨[128, 0, 5, 0, 7, 0], 0⟩ 128 0 (by decide)
      (by decide)).2 (Or.inl rfl) (5, 7) ⟨[128, 0, 5, 0, 7, 0], 6⟩ (by decide),
   nudge_option_gating_and_width.2.2.1 ⟨[0, 131, 120, 0], 0⟩ 0 ⟨(0, 0), 131, 120, 0, 0⟩
      ⟨[0, 131, 120, 0], 4⟩ (by decide) (by decide) (by decide),
   nudge_option_gating_and_width.2.2.2 ⟨[0, 1, 2, 0], 0⟩ 0 2 ⟨(0, 0), 1, 2, 0⟩
      ⟨[0, 1, 2, 0], 4⟩ (by decide) (by decide) (by decide) (by decide)⟩

/-- Claim C2 (counterexample): on a buffer whose record stream is the PILE
tag (4) followed by the byte 10, the decoder does not return an
unsupported-record error: it continues past the PILE tag without consuming
any payload, reinterprets the next byte as a FULL record, and returns a
successful Document. -/
theorem unsupported_tag_counterexample :
    MTEquation.parse [5, 0, 0, 0, 0, 0, 0, 4, 10] =
      some (Except.ok ⟨5, 0, 0, 0, 0, "", 0, builtin_encoding_defs,
        [.FULL]⟩) := by decide

/-- Claim C2 (amended): for every PILE, EMBELL, MATRIX, RULER, SIZE, COLOR,
or COLOR_DEF tag, the decoder consumes no payload bytes, records nothing,
and produces no error — the arm only logs the tag name and continues, so the
following bytes are reinterpreted as fresh record tags. -/
theorem unsupported_tags_skip_without_error :
    ∀ (c : Cursor) (tag : Nat),
      tag = eqnConsts.PILE ∨ tag = eqnConsts.EMBELL ∨ tag = eqnConsts.MATRIX ∨
        tag = eqnConsts.RULER ∨ tag = eqnConsts.SIZE ∨ tag = eqnConsts.COLOR ∨
        tag = eqnConsts.COLOR_DEF →
      parseRecord tag c = some (none, c) := by
  rintro c tag (rfl | rfl | rfl | rfl | rfl | rfl | rfl) <;> rfl

/-- Witness for the amended C2 theorem at the PILE tag. -/
theorem unsupported_tags_skip_without_error_witness :
    parseRecord eqnConsts.PILE ⟨[1, 2, 3], 0⟩ = some (none, ⟨[1, 2, 3], 0⟩) :=
  unsupported_tags_skip_without_error ⟨[1, 2, 3], 0⟩ eqnConsts.PILE (Or.inl rfl)

/-- Claim C3 (counterexample): the buffer that opens a LINE object list and
then ends (no END terminator) does not produce a malformed-buffer error: the
decode returns a successful Document that silently stops at the truncation
point. -/
theorem open_list_truncation_counterexample :
    MTEquation.parse [5, 0, 0, 0, 0, 0, 0, 1, 0] =
      some (Except.ok ⟨5, 0, 0, 0, 0, "", 0, builtin_encoding_defs,
        [.LINE ⟨(0, 0), 0, false⟩]⟩) := by decide

/-- Claim C3 (amended): no decode of any input buffer ever produces a typed
decode error — for every buffer, the decoder either panics (a failed
`.unwrap()`, modelled `none`) or returns a successful Document.  In
particular, a buffer truncated in the middle of a record panics rather than
returning a typed error, and a buffer that ends at a record boundary — even
with an object list left open — returns a successful Document that silently
stops at the truncation point, as the two concrete conjuncts show. -/
theorem truncation_panics_or_succeeds :
    (∀ buf : List Nat, MTEquation.parse buf = none ∨
      ∃ eqn, MTEquation.parse buf = some (Except.ok eqn)) ∧
    MTEquation.parse [5, 0, 0, 0, 0, 0, 0, 2] = none ∧
    MTEquation.parse [5, 0, 0, 0, 0, 0, 0, 1, 4, 7] =
      some (Except.ok ⟨5, 0, 0, 0, 0, "", 0, builtin_encoding_defs,
        [.LINE ⟨(0, 0), 7, false⟩]⟩) := by
  refine ⟨fun buf => ?_, by decide, by decide⟩
  cases h : MTEquation.parse buf with
  | none => exact Or.inl rfl
  | some r =>
    obtain ⟨eqn, rfl, -⟩ := parse_shape h
    exact Or.inr ⟨eqn, rfl⟩

/-- Witness for the amended C3 theorem, instantiating the universal conjunct
at the minimal valid buffer (which takes the successful-Document branch). -/
theorem truncation_panics_or_succeeds_witness :
    MTEquation.parse [5, 0, 0, 0, 0, 0, 0] = none ∨
      ∃ eqn, MTEquation.parse [5, 0, 0, 0, 0, 0, 0] = some (Except.ok eqn) :=
  truncation_panics_or_succeeds.1 [5, 0, 0, 0, 0, 0, 0]

/-- Claim C4: the decoder does not read a length byte after a tag ≥ 100. On
the record stream `[100, 1, 2]` the claim predicts length 1 and one skipped
payload byte, leaving only a FUTURE record; the code instead records FUTURE,
consumes nothing, and reinterprets the would-be length byte `1` as a LINE
tag with option byte `2`. -/
theorem future_length_byte_reparsed_as_tag :
    MTEquation.parse [5, 0, 0, 0, 0, 0, 0, 100, 1, 2] =
      some (Except.ok ⟨5, 0, 0, 0, 0, "", 0, builtin_encoding_defs,
        [.FUTURE, .LINE ⟨(0, 0), 0, false⟩]⟩) := by decide

/-- Claim C5 (counterexample): an ENCODING_DEF record naming `"A"` is pushed
onto the general `records` list, not onto `encoding_defs`; the encoding
table still holds exactly the four built-ins after the decode. -/
theorem encoding_def_not_appended_to_table :
    MTEquation.parse [5, 0, 0, 0, 0, 0, 0, 19, 65, 0] =
      some (Except.ok ⟨5, 0, 0, 0, 0, "", 0, builtin_encoding_defs,
        [.ENCODING_DEF "A"]⟩) := by decide

/-- Claim C5 (amended): the encoding-definition table starts pre-seeded with
exactly MTCode, Unknown, Symbol, MTExtra at indices 0 through 3 and never
changes thereafter: ENCODING_DEF records encountered in the stream are
appended to the general `records` list instead, so `encoding_defs` of every
decoded Document equals the four built-ins. -/
theorem encoding_table_always_builtins :
    ∀ (buf : List Nat) (eqn : MTEquation),
      MTEquation.parse buf = some (Except.ok eqn) →
      eqn.encoding_defs = builtin_encoding_defs := by
  intro buf eqn h
  obtain ⟨e, he, hdef⟩ := parse_shape h
  injection he with he'
  rw [he']
  exact hdef

/-- Witness for the amended C5 theorem on the empty record stream. -/
theorem encoding_table_always_builtins_witness :
    (⟨5, 0, 0, 0, 0, "", 0, builtin_encoding_defs, []⟩ : MTEquation).encoding_defs =
      builtin_encoding_defs :=
  encoding_table_always_builtins [5, 0, 0, 0, 0, 0, 0]
    ⟨5, 0, 0, 0, 0, "", 0, builtin_encoding_defs, []⟩ (by decide)

/-- Claim C6 (counterexample): the scenario buffer — a TMPL record with
selector 1, single-byte variation 2, two one-Character slots each closed by
its own END, then the TMPL's END — does not decode to a Template node owning
two child Object Lists: the decoder is flat, so the TMPL record (whose type
has no child-list field) is followed by the slot records and all three END
markers as eight sibling records in the root list. -/
theorem tmpl_scenario_decodes_flat :
    MTEquation.parse [5, 0, 0, 0, 0, 0, 0,
        3, 0, 1, 2, 0, 1, 0, 2, 32, 131, 0, 1, 0, 2, 32, 131, 0, 0] =
      some (Except.ok ⟨5, 0, 0, 0, 0, "", 0, builtin_encoding_defs,
        [.TMPL ⟨(0, 0), 1, 2, 0⟩,
         .LINE ⟨(0, 0), 0, false⟩, .CHAR ⟨(0, 0), 131, 0, 0, 0⟩, .END,
         .LINE ⟨(0, 0), 0, false⟩, .CHAR ⟨(0, 0), 131, 0, 0, 0⟩, .END,
         .END]⟩) := by decide

/-- Claim C6 (amended): decoding a TMPL record with the NUDGE bit clear, a
selector byte, a variation byte with the high bit clear (single-byte form)
and a slot-options byte produces an `MTTmpl` record carrying exactly those
selector/variation/options values and consuming exactly 4 bytes after the
tag; the record owns no child lists — slot contents decode as subsequent
sibling records (see the counterexample). -/
theorem tmpl_single_byte_variation_decode :
    ∀ (c : Cursor) (opts sel v1 sopts : Nat),
      c.buf.get? c.pos = some opts →
      MTEF_OPT_NUDGE ≠ Nat.land MTEF_OPT_NUDGE opts →
      c.buf.get? (c.pos + 1) = some sel →
      c.buf.get? (c.pos + 2) = some v1 →
      0x80 ≠ Nat.land v1 0x80 →
      c.buf.get? (c.pos + 3) = some sopts →
      readTMPL c = some (⟨(0, 0), sel, v1, sopts⟩, ⟨c.buf, c.pos + 4⟩) :=
  fun _c _opts _sel _v1 _sopts h0 hn h1 h2 hv h3 =>
    readTMPL_single_byte h0 hn h1 h2 hv h3

/-- Witness for the amended C6 theorem on the scenario's own TMPL payload
bytes `[0, 1, 2, 0]`: selector 1, variation 2, slot options 0. -/
theorem tmpl_single_byte_variation_decode_witness :
    readTMPL ⟨[0, 1, 2, 0], 0⟩ =
      some (⟨(0, 0), 1, 2, 0⟩, ⟨[0, 1, 2, 0], 4⟩) :=
  tmpl_single_byte_variation_decode ⟨[0, 1, 2, 0], 0⟩ 0 1 2 0 (by decide) (by decide)
    (by decide) (by decide) (by decide) (by decide)

/-- Claim C7: for every CHAR record whose option byte has the NO_MTCODE bit
(0x20) clear, the decoded Character's MTCode is read from the stream as a
2-byte little-endian integer (two consecutive buffer bytes `lo`, `hi` with
value `lo + 256 * hi`); with the bit set, no MTCode is read and the field
keeps its 0 default — in both cases regardless of the 8-bit (0x04) and
16-bit (0x10) font-position option bits, over which the statement
quantifies. -/
theorem char_mtcode_option_gated :
    ∀ (c : Cursor) (opts : Nat) (ch : MTChar) (c' : Cursor),
      c.buf.get? c.pos = some opts →
      readCHAR c = some (ch, c') →
      (MTEF_OPT_CHAR_ENC_NO_MTCODE = Nat.land MTEF_OPT_CHAR_ENC_NO_MTCODE opts →
        ch.mtcode = 0) ∧
      (MTEF_OPT_CHAR_ENC_NO_MTCODE ≠ Nat.land MTEF_OPT_CHAR_ENC_NO_MTCODE opts →
        ∃ k lo hi, c.buf.get? k = some lo ∧ c.buf.get? (k + 1) = some hi ∧
          ch.mtcode = lo + 256 * hi) :=
  fun _c _opts _ch _c' h0 h => readCHAR_mtcode h0 h

/-- Witness for the C7 theorem: a CHAR record with option byte 0 (bit clear,
MTCode read from bytes 120, 0) and one with option byte 0x20 (bit set,
MTCode left 0). -/
theorem char_mtcode_option_gated_witness :
    ((MTEF_OPT_CHAR_ENC_NO_MTCODE = Nat.land MTEF_OPT_CHAR_ENC_NO_MTCODE 0 →
        (⟨(0, 0), 131, 120, 0, 0⟩ : MTChar).mtcode = 0) ∧
      (MTEF_OPT_CHAR_ENC_NO_MTCODE ≠ Nat.land MTEF_OPT_CHAR_ENC_NO_MTCODE 0 →
        ∃ k lo hi, [0, 131, 120, 0].get? k = some lo ∧
          [0, 131, 120, 0].get? (k + 1) = some hi ∧
          (⟨(0, 0), 131, 120, 0, 0⟩ : MTChar).mtcode = lo + 256 * hi)) ∧
    ((MTEF_OPT_CHAR_ENC_NO_MTCODE = Nat.land MTEF_OPT_CHAR_ENC_NO_MTCODE 32 →
        (⟨(0, 0), 131, 0, 0, 0⟩ : MTChar).mtcode = 0) ∧
      (MTEF_OPT_CHAR_ENC_NO_MTCODE ≠ Nat.land MTEF_OPT_CHAR_ENC_NO_MTCODE 32 →
        ∃ k lo hi, [32, 131].get? k = some lo ∧ [32, 131].get? (k + 1) = some hi ∧
          (⟨(0, 0), 131, 0, 0, 0⟩ : MTChar).mtcode = lo + 256 * hi)) :=
  ⟨char_mtcode_option_gated ⟨[0, 131, 120, 0], 0⟩ 0 ⟨(0, 0), 131, 120, 0, 0⟩
      ⟨[0, 131, 120, 0], 4⟩ (by decide) (by decide),
   char_mtcode_option_gated ⟨[32, 131], 0⟩ 32 ⟨(0, 0), 131, 0, 0, 0⟩
      ⟨[32, 131], 2⟩ (by decide) (by decide)⟩

/-- Claim C8: the scenario buffer — header `05 00 00 00 00`, application
`"MathType"` with its NUL, inline flag `00`, one CHAR record with options 0,
typeface byte 0x83 (the bias-128 encoding of the "variable" style,
`FN_VARIABLE = 3`), little-endian MTCode `0x0078`, then the END byte —
decodes to a Document with exactly those header fields whose root record
list holds one Character node (typeface byte 0x83 = 131, MTCode 0x78 = 120)
followed by the terminating END marker and nothing after it. -/
theorem char_scenario_decode :
    MTEquation.parse
        [5, 0, 0, 0, 0, 77, 97, 116, 104, 84, 121, 112, 101, 0, 0,
         2, 0, 131, 120, 0, 0] =
      some (Except.ok ⟨5, 0, 0, 0, 0, "MathType", 0, builtin_encoding_defs,
        [.CHAR ⟨(0, 0), 131, 120, 0, 0⟩, .END]⟩) := by decide

/-- Claim C9: the canonical table (`record_types` in `src/constants.rs`, and
the doc comments beside the decoder's own constants) assigns MATRIX = 5 and
EMBELL = 6, but the decoder's file-local constants in `src/eqn.rs` swap
them: the constant named EMBELL is 5 and the constant named MATRIX is 6, so
a tag byte 5 is dispatched to the arm the decoder labels EMBELL and a tag
byte 6 to the arm it labels MATRIX — the opposite of the claim. -/
theorem embell_matrix_constants_swapped :
    eqnConsts.EMBELL = 5 ∧ eqnConsts.MATRIX = 6 ∧
    record_types.MATRIX = 5 ∧ record_types.EMBELL = 6 ∧
    eqnConsts.EMBELL = record_types.MATRIX ∧
    eqnConsts.MATRIX = record_types.EMBELL := by decide

/-- Claim C10: whenever `MTEquation::parse` returns a value at all (rather
than panicking, modelled as `none`), that value is `Ok`: no input buffer can
make the public parse entry point produce an `Err` result. -/
theorem parse_never_returns_err :
    ∀ (buf : List Nat) (r : Except Error MTEquation),
      MTEquation.parse buf = some r → ∃ eqn, r = Except.ok eqn :=
  fun _buf _r h => (parse_shape h).imp (fun _e he => he.1)

/-- Witness for the C10 theorem on the minimal valid buffer. -/
theorem parse_never_returns_err_witness :
    ∃ eqn : MTEquation,
      (Except.ok (⟨5, 0, 0, 0, 0, "", 0, builtin_encoding_defs, []⟩ : MTEquation) :
        Except Error MTEquation) = Except.ok eqn :=
  parse_never_returns_err [5, 0, 0, 0, 0, 0, 0]
    (Except.ok ⟨5, 0, 0, 0, 0, "", 0, builtin_encoding_defs, []⟩) (by decide)
